import Mathlib

/-!
Verification of the ImageEditor backend (FastAPI image-editing service).

This file gives a shallow embedding of the parts of the backend that the
specification's claims are about:

* the base64 encode/decode boundary (`decode_base64_image`,
  `encode_image_to_base64` in `backend/routers/websocket_router.py`),
* the filter pipeline (`apply_filters_to_image`),
* the per-connection websocket state machine (`websocket_endpoint`),
* the crop endpoint's parameter validation (`crop_image` in
  `backend/routers/image_router.py`) and the operation dispatch of the
  `adjust` endpoint.

Images are modelled as lists of pixel rows (mode `RGB` or mode `L`, the two
modes the pipeline produces); machine bytes are `Nat` with explicit bounds;
fallible operations return `Option` or `Except`.  The external PIL PNG codec
is modelled as a concrete lossless serialisation of the pixel data, which is
the property of PNG the code relies on; the base64 layer is the real
RFC 4648 algorithm used by Python's `base64` module.
-/

/-- One RGB pixel; channel values are bytes (0–255) in well-formed images. -/
structure RGB where
  r : Nat
  g : Nat
  b : Nat
deriving DecidableEq, Repr

/-- The standard base64 alphabet used by Python `base64.b64encode`:
sextet `n < 64` maps to its RFC 4648 character. -/
def sextetToChar (n : Nat) : Char :=
  if n < 26 then Char.ofNat (65 + n)
  else if n < 52 then Char.ofNat (97 + (n - 26))
  else if n < 62 then Char.ofNat (48 + (n - 52))
  else if n = 62 then '+'
  else '/'

/-- Inverse alphabet lookup used by `base64.b64decode`. -/
def charToSextet (c : Char) : Option Nat :=
  if 65 ≤ c.toNat ∧ c.toNat ≤ 90 then some (c.toNat - 65)
  else if 97 ≤ c.toNat ∧ c.toNat ≤ 122 then some (c.toNat - 97 + 26)
  else if 48 ≤ c.toNat ∧ c.toNat ≤ 57 then some (c.toNat - 48 + 52)
  else if c = '+' then some 62
  else if c = '/' then some 63
  else none

/-- Python `base64.b64encode`: bytes are packed three at a time into four
alphabet characters, with `=` padding for a trailing group of one or two
bytes. -/
def b64EncodeGroups : List Nat → List Char
  | a :: b :: c :: rest =>
      sextetToChar (a / 4) :: sextetToChar ((a % 4) * 16 + b / 16) ::
        sextetToChar ((b % 16) * 4 + c / 64) :: sextetToChar (c % 64) ::
        b64EncodeGroups rest
  | [a, b] => [sextetToChar (a / 4), sextetToChar ((a % 4) * 16 + b / 16),
      sextetToChar ((b % 16) * 4), '=']
  | [a] => [sextetToChar (a / 4), sextetToChar ((a % 4) * 16), '=', '=']
  | [] => []

/-- Unpacking of a list of sextets into bytes (the final group of two or
three sextets comes from a padded group and yields one or two bytes). -/
def sextetsToBytes : List Nat → List Nat
  | s1 :: s2 :: s3 :: s4 :: rest =>
      (s1 * 4 + s2 / 16) :: ((s2 % 16) * 16 + s3 / 4) :: ((s3 % 4) * 64 + s4) ::
        sextetsToBytes rest
  | [s1, s2, s3] => [s1 * 4 + s2 / 16, (s2 % 16) * 16 + s3 / 4]
  | [s1, s2] => [s1 * 4 + s2 / 16]
  | _ => []

/-- A character `b64decode` keeps: alphabet characters and padding. -/
def isB64Char (c : Char) : Bool := (charToSextet c).isSome || c = '='

/-- Look up every character of the body in the alphabet. -/
def mapSextets : List Char → Option (List Nat)
  | [] => some []
  | c :: cs =>
    match charToSextet c, mapSextets cs with
    | some s, some ss => some (s :: ss)
    | _, _ => none

/-- Model of Python `base64.b64decode` (default `validate=False`): characters
outside the alphabet are discarded, the remaining length must be a multiple
of four with at most two trailing `=` padding characters, and the sextets are
packed back into bytes.  A raised `binascii.Error` is modelled by `none`. -/
def b64Decode (s : List Char) : Option (List Nat) :=
  let t := s.filter isB64Char
  let body := t.takeWhile (fun c => c ≠ '=')
  let pad := t.dropWhile (fun c => c ≠ '=')
  if pad.all (fun c => c = '=') ∧ (body.length + pad.length) % 4 = 0 ∧
      pad.length ≤ 2 then
    match mapSextets body with
    | some ss => some (sextetsToBytes ss)
    | none => none
  else none

theorem charToSextet_sextetToChar (n : Nat) (h : n < 64) :
    charToSextet (sextetToChar n) = some n := by
  interval_cases n <;> decide

theorem sextetToChar_ne_eq (n : Nat) (h : n < 64) : sextetToChar n ≠ '=' := by
  intro he
  have h1 := charToSextet_sextetToChar n h
  rw [he] at h1
  simp [charToSextet] at h1

/-- Structure of the encoder output: alphabet characters followed by
padding, unpacking back to the input bytes. -/
theorem b64EncodeGroups_shape (bs : List Nat) (h : ∀ x ∈ bs, x < 256) :
    ∃ ss p, b64EncodeGroups bs = ss.map sextetToChar ++ List.replicate p '=' ∧
      (∀ s ∈ ss, s < 64) ∧ sextetsToBytes ss = bs ∧
      (ss.length + p) % 4 = 0 ∧ p ≤ 2 := by
  induction bs using b64EncodeGroups.induct with
  | case1 a b c rest ih =>
    have ha : a < 256 := h a (by simp)
    have hb : b < 256 := h b (by simp)
    have hc : c < 256 := h c (by simp)
    obtain ⟨ss, p, henc, hlt, hdec, hmod, hp⟩ := ih (fun x hx => h x (by simp [hx]))
    refine ⟨a / 4 :: ((a % 4) * 16 + b / 16) :: ((b % 16) * 4 + c / 64) ::
      c % 64 :: ss, p, ?_, ?_, ?_, ?_, hp⟩
    · simp [b64EncodeGroups, henc]
    · intro s hs
      simp only [List.mem_cons] at hs
      rcases hs with rfl | rfl | rfl | rfl | hs
      · omega
      · omega
      · omega
      · omega
      · exact hlt s hs
    · simp only [sextetsToBytes, hdec]
      congr 1
      · omega
      congr 1
      · omega
      congr 1
      omega
    · simp only [List.length_cons]
      omega
  | case2 a b =>
    have ha : a < 256 := h a (by simp)
    have hb : b < 256 := h b (by simp)
    refine ⟨[a / 4, (a % 4) * 16 + b / 16, (b % 16) * 4], 1, ?_, ?_, ?_, ?_, ?_⟩
    · simp [b64EncodeGroups, List.replicate]
    · intro s hs
      simp only [List.mem_cons, List.not_mem_nil, or_false] at hs
      rcases hs with rfl | rfl | rfl <;> omega
    · simp only [sextetsToBytes]
      congr 1
      · omega
      congr 1
      omega
    · simp
    · omega
  | case3 a =>
    have ha : a < 256 := h a (by simp)
    refine ⟨[a / 4, (a % 4) * 16], 2, ?_, ?_, ?_, ?_, ?_⟩
    · simp [b64EncodeGroups, List.replicate]
    · intro s hs
      simp only [List.mem_cons, List.not_mem_nil, or_false] at hs
      rcases hs with rfl | rfl <;> omega
    · simp only [sextetsToBytes]
      congr 1
      omega
    · simp
    · omega
  | case4 =>
    exact ⟨[], 0, by simp [b64EncodeGroups], by simp, rfl, by simp, by omega⟩

theorem mapSextets_map (ss : List Nat) (h : ∀ s ∈ ss, s < 64) :
    mapSextets (ss.map sextetToChar) = some ss := by
  induction ss with
  | nil => rfl
  | cons s ss ih =>
    have hs : s < 64 := h s (by simp)
    simp only [List.map_cons, mapSextets, charToSextet_sextetToChar s hs,
      ih (fun x hx => h x (by simp [hx]))]

theorem takeWhile_sextets_append (ss : List Nat) (h : ∀ s ∈ ss, s < 64)
    (p : Nat) :
    (ss.map sextetToChar ++ List.replicate p '=').takeWhile
        (fun c => c ≠ '=') = ss.map sextetToChar ∧
    (ss.map sextetToChar ++ List.replicate p '=').dropWhile
        (fun c => c ≠ '=') = List.replicate p '=' := by
  induction ss with
  | nil =>
    cases p with
    | zero => simp
    | succ q => simp [List.replicate, List.takeWhile, List.dropWhile]
  | cons s ss ih =>
    have hs : s < 64 := h s (by simp)
    have hne : sextetToChar s ≠ '=' := sextetToChar_ne_eq s hs
    have hpt : (fun c => decide (c ≠ '=')) (sextetToChar s) = true := by
      simp [hne]
    obtain ⟨h1, h2⟩ := ih (fun x hx => h x (by simp [hx]))
    constructor
    · rw [List.map_cons, List.cons_append,
        List.takeWhile_cons_of_pos (p := fun c => decide (c ≠ '=')) hpt, h1]
    · rw [List.map_cons, List.cons_append,
        List.dropWhile_cons_of_pos (p := fun c => decide (c ≠ '=')) hpt, h2]

/-- Round trip of the base64 layer: Python `b64decode (b64encode bytes)`
returns the bytes unchanged. -/
theorem b64Decode_b64EncodeGroups (bs : List Nat) (h : ∀ x ∈ bs, x < 256) :
    b64Decode (b64EncodeGroups bs) = some bs := by
  obtain ⟨ss, p, henc, hlt, hdec, hmod, hp⟩ := b64EncodeGroups_shape bs h
  have hfilter : (b64EncodeGroups bs).filter isB64Char = b64EncodeGroups bs := by
    rw [List.filter_eq_self]
    intro c hc
    rw [henc] at hc
    rcases List.mem_append.mp hc with hc | hc
    · obtain ⟨s, hs, rfl⟩ := List.mem_map.mp hc
      simp [isB64Char, charToSextet_sextetToChar s (hlt s hs)]
    · have : c = '=' := List.eq_of_mem_replicate hc
      simp [isB64Char, this]
  obtain ⟨htake, hdrop⟩ := takeWhile_sextets_append ss hlt p
  rw [henc] at hfilter
  rw [b64Decode]
  simp only [henc, hfilter, htake, hdrop]
  rw [if_pos]
  · rw [mapSextets_map ss hlt]
    simp [hdec]
  · refine ⟨?_, ?_, ?_⟩
    · rw [List.all_eq_true]
      intro c hc
      simp [List.eq_of_mem_replicate hc]
    · simpa using hmod
    · simpa using hp

/-- An in-memory bitmap as the session code sees it: PIL mode `RGB` or mode
`L` (the two modes the pipeline produces and consumes), with its rows of
pixels. -/
inductive Img where
  | rgb (rows : List (List RGB))
  | gray (rows : List (List Nat))
deriving DecidableEq, Repr

/-- PIL `img.mode`. -/
def Img.mode : Img → String
  | .rgb _ => "RGB"
  | .gray _ => "L"

/-- PIL `img.height`. -/
def Img.height : Img → Nat
  | .rgb rows => rows.length
  | .gray rows => rows.length

/-- PIL `img.width`. -/
def Img.width : Img → Nat
  | .rgb rows => ((rows.head?).map List.length).getD 0
  | .gray rows => ((rows.head?).map List.length).getD 0

/-- Well-formed bitmap: rectangular rows, byte-sized channel values and
dimensions that fit PNG's 4-byte dimension fields. -/
def Img.wf : Img → Prop
  | .rgb rows =>
      (∀ row ∈ rows, row.length = Img.width (.rgb rows) ∧
        ∀ p ∈ row, p.r < 256 ∧ p.g < 256 ∧ p.b < 256) ∧
      Img.width (.rgb rows) < 2 ^ 32 ∧ rows.length < 2 ^ 32
  | .gray rows =>
      (∀ row ∈ rows, row.length = Img.width (.gray rows) ∧
        ∀ v ∈ row, v < 256) ∧
      Img.width (.gray rows) < 2 ^ 32 ∧ rows.length < 2 ^ 32

instance : DecidablePred Img.wf := by
  intro img
  cases img <;> simp only [Img.wf] <;> infer_instance

/-- Big-endian 4-byte encoding of a dimension (PNG stores width and height
as 4-byte big-endian integers). -/
def be32 (n : Nat) : List Nat :=
  [n / 2 ^ 24 % 256, n / 2 ^ 16 % 256, n / 2 ^ 8 % 256, n % 256]

/-- Raw bytes of one RGB row. -/
def rgbRowBytes (row : List RGB) : List Nat :=
  row.flatMap fun p => [p.r, p.g, p.b]

/-- Model of the external PIL PNG encoder (`Image.save(..., format="PNG")`):
PNG is lossless, so the codec is modelled as a concrete lossless
serialisation of the mode tag, the 4-byte big-endian dimensions and the raw
pixel bytes.  The repository relies on nothing about PNG beyond
losslessness. -/
def pngEncode : Img → List Nat
  | .rgb rows =>
      2 :: (be32 (Img.width (.rgb rows)) ++ be32 rows.length ++
        (rows.map rgbRowBytes).flatten)
  | .gray rows =>
      1 :: (be32 (Img.width (.gray rows)) ++ be32 rows.length ++ rows.flatten)

/-- Reassemble a big-endian 4-byte dimension. -/
def rd32 (a b c d : Nat) : Nat := ((a * 256 + b) * 256 + c) * 256 + d

/-- Split a flat pixel buffer into `h` rows of `w` entries. -/
def unflattenRows {α : Type} : Nat → Nat → List α → List (List α)
  | 0, _, _ => []
  | h + 1, w, xs => xs.take w :: unflattenRows h w (xs.drop w)

/-- Group a row's raw bytes back into RGB pixels. -/
def bytesToRGBRow : List Nat → List RGB
  | r :: g :: b :: rest => ⟨r, g, b⟩ :: bytesToRGBRow rest
  | _ => []

/-- Model of `PIL.Image.open` on PNG bytes, the inverse of `pngEncode`;
`none` models the exception PIL raises on an unreadable stream. -/
def pngDecode : List Nat → Option Img
  | 2 :: a :: b :: c :: d :: e :: f :: g :: k :: pix =>
      if pix.length = rd32 e f g k * (rd32 a b c d * 3) then
        some (.rgb ((unflattenRows (rd32 e f g k) (rd32 a b c d * 3) pix).map
          bytesToRGBRow))
      else none
  | 1 :: a :: b :: c :: d :: e :: f :: g :: k :: pix =>
      if pix.length = rd32 e f g k * rd32 a b c d then
        some (.gray (unflattenRows (rd32 e f g k) (rd32 a b c d) pix))
      else none
  | _ => none

theorem rd32_be32 (n : Nat) (h : n < 2 ^ 32) :
    rd32 (n / 2 ^ 24 % 256) (n / 2 ^ 16 % 256) (n / 2 ^ 8 % 256) (n % 256) = n := by
  simp only [rd32]
  omega

theorem flatten_length_const {α : Type} (rows : List (List α)) (w : Nat)
    (h : ∀ r ∈ rows, r.length = w) : rows.flatten.length = rows.length * w := by
  induction rows with
  | nil => simp
  | cons r rest ih =>
    simp only [List.flatten_cons, List.length_append, List.length_cons,
      h r (by simp), ih (fun x hx => h x (by simp [hx]))]
    ring

theorem unflattenRows_flatten {α : Type} (rows : List (List α)) (w : Nat)
    (h : ∀ r ∈ rows, r.length = w) :
    unflattenRows rows.length w rows.flatten = rows := by
  induction rows with
  | nil => rfl
  | cons r rest ih =>
    simp only [List.length_cons, List.flatten_cons, unflattenRows]
    have hr : r.length = w := h r (by simp)
    have ht : List.take w (r ++ rest.flatten) = r := by
      rw [← hr]
      exact List.take_left r _
    have hd : List.drop w (r ++ rest.flatten) = rest.flatten := by
      rw [← hr]
      exact List.drop_left r _
    rw [ht, hd, ih (fun x hx => h x (by simp [hx]))]

theorem bytesToRGBRow_rgbRowBytes (row : List RGB) :
    bytesToRGBRow (rgbRowBytes row) = row := by
  induction row with
  | nil => rfl
  | cons p rest ih =>
    cases p with
    | mk pr pg pb =>
      simp only [rgbRowBytes, List.flatMap_cons] at *
      simp only [List.cons_append, bytesToRGBRow]
      simp [ih]

theorem rgbRowBytes_length (row : List RGB) :
    (rgbRowBytes row).length = row.length * 3 := by
  induction row with
  | nil => rfl
  | cons p rest ih =>
    simp only [rgbRowBytes, List.flatMap_cons] at *
    simp [ih]
    ring

/-- The modelled PNG codec is lossless on well-formed bitmaps. -/
theorem pngDecode_pngEncode (img : Img) (h : img.wf) :
    pngDecode (pngEncode img) = some img := by
  cases img with
  | rgb rows =>
    obtain ⟨hrows, hw, hh⟩ := h
    simp only [pngEncode, be32, List.cons_append, List.nil_append]
    simp only [pngDecode, rd32_be32 _ hw, rd32_be32 _ hh]
    have hlen : ∀ r ∈ rows.map rgbRowBytes,
        r.length = Img.width (.rgb rows) * 3 := by
      intro r hr
      obtain ⟨row, hrow, rfl⟩ := List.mem_map.mp hr
      rw [rgbRowBytes_length, (hrows row hrow).1]
    rw [if_pos]
    · have := unflattenRows_flatten (rows.map rgbRowBytes) _ hlen
      rw [List.length_map] at this
      rw [this, List.map_map]
      have hmaps : (rows.map (bytesToRGBRow ∘ rgbRowBytes)) = rows := by
        rw [List.map_congr_left fun r _ => ?_, List.map_id]
        exact bytesToRGBRow_rgbRowBytes r
      rw [hmaps]
    · rw [flatten_length_const _ _ hlen, List.length_map]
  | gray rows =>
    obtain ⟨hrows, hw, hh⟩ := h
    simp only [pngEncode, be32, List.cons_append, List.nil_append]
    simp only [pngDecode, rd32_be32 _ hw, rd32_be32 _ hh]
    have hlen : ∀ r ∈ rows, r.length = Img.width (.gray rows) :=
      fun r hr => (hrows r hr).1
    rw [if_pos]
    · rw [unflattenRows_flatten rows _ hlen]
    · exact flatten_length_const _ _ hlen

/-- Every byte emitted by the modelled PNG encoder is an actual byte. -/
theorem pngEncode_lt (img : Img) (h : img.wf) :
    ∀ x ∈ pngEncode img, x < 256 := by
  cases img with
  | rgb rows =>
    obtain ⟨hrows, hw, hh⟩ := h
    intro x hx
    simp only [pngEncode, be32, List.cons_append, List.nil_append,
      List.mem_cons, List.mem_append] at hx
    rcases hx with rfl | rfl | rfl | rfl | rfl | rfl | rfl | rfl | rfl | hx
    · omega
    · omega
    · omega
    · omega
    · omega
    · omega
    · omega
    · omega
    · omega
    · obtain ⟨r, hr, hxr⟩ := List.mem_flatten.mp hx
      obtain ⟨row, hrow, rfl⟩ := List.mem_map.mp hr
      simp only [rgbRowBytes, List.mem_flatMap] at hxr
      obtain ⟨p, hp, hxp⟩ := hxr
      have := (hrows row hrow).2 p hp
      simp only [List.mem_cons, List.not_mem_nil, or_false] at hxp
      rcases hxp with rfl | rfl | rfl <;> omega
  | gray rows =>
    obtain ⟨hrows, hw, hh⟩ := h
    intro x hx
    simp only [pngEncode, be32, List.cons_append, List.nil_append,
      List.mem_cons, List.mem_append] at hx
    rcases hx with rfl | rfl | rfl | rfl | rfl | rfl | rfl | rfl | rfl | hx
    · omega
    · omega
    · omega
    · omega
    · omega
    · omega
    · omega
    · omega
    · omega
    · obtain ⟨r, hr, hxr⟩ := List.mem_flatten.mp hx
      exact (hrows r hr).2 x hxr

theorem sextetToChar_ne_comma (n : Nat) (h : n < 64) : sextetToChar n ≠ ',' := by
  intro he
  have h1 := charToSextet_sextetToChar n h
  rw [he] at h1
  simp [charToSextet] at h1

theorem b64EncodeGroups_no_comma (bs : List Nat) (h : ∀ x ∈ bs, x < 256) :
    ∀ c ∈ b64EncodeGroups bs, c ≠ ',' := by
  obtain ⟨ss, p, henc, hlt, -, -, -⟩ := b64EncodeGroups_shape bs h
  intro c hc
  rw [henc] at hc
  rcases List.mem_append.mp hc with hc | hc
  · obtain ⟨s, hs, rfl⟩ := List.mem_map.mp hc
    exact sextetToChar_ne_comma s (hlt s hs)
  · have he := List.eq_of_mem_replicate hc
    subst he
    decide

/-- The data-URL header `"data:image/png;base64,"` the endpoint prepends to
every outgoing image. -/
def dataUrlHeader : List Char :=
  ['d', 'a', 't', 'a', ':', 'i', 'm', 'a', 'g', 'e', '/', 'p', 'n', 'g',
    ';', 'b', 'a', 's', 'e', '6', '4', ',']

theorem dataUrlHeader_chars : dataUrlHeader = "data:image/png;base64,".toList := by
  decide

/-- `decode_base64_image` (websocket_router.py, lines 11–17): when a comma is
present, keep Python's `base64_string.split(',')[1]` — the text between the
first and the second comma — then `base64.b64decode`, then `Image.open`.
A raised exception is modelled by `none`. -/
def decode_base64_image (s : List Char) : Option Img :=
  let t := if s.contains ',' then
      (((s.dropWhile (fun c => c ≠ ',')).drop 1).takeWhile (fun c => c ≠ ','))
    else s
  match b64Decode t with
  | some bytes => pngDecode bytes
  | none => none

/-- `encode_image_to_base64` (websocket_router.py, lines 20–25): save as PNG
and base64-encode the bytes. -/
def encode_image_to_base64 (img : Img) : List Char :=
  b64EncodeGroups (pngEncode img)

/-- A base64 encoding of PNG bytes contains no comma, so
`decode_base64_image` applies no data-URL stripping to it. -/
theorem decode_base64_image_encode (img : Img) (h : img.wf) :
    decode_base64_image (encode_image_to_base64 img) = some img := by
  have hbytes := pngEncode_lt img h
  have hnc := b64EncodeGroups_no_comma _ hbytes
  have hcontains : (b64EncodeGroups (pngEncode img)).contains ',' = false := by
    rw [Bool.eq_false_iff]
    intro hc
    exact hnc ',' (List.mem_of_elem_eq_true hc) rfl
  rw [decode_base64_image, encode_image_to_base64]
  simp only [hcontains, Bool.false_eq_true, if_false,
    b64Decode_b64EncodeGroups _ hbytes, pngDecode_pngEncode img h]

/-- Stripping the data-URL header recovers the base64 body. -/
theorem stripHeader_append (s : List Char) (hs : ∀ c ∈ s, c ≠ ',') :
    (((dataUrlHeader ++ s).dropWhile (fun c => c ≠ ',')).drop 1).takeWhile
      (fun c => c ≠ ',') = s := by
  have hdrop : (dataUrlHeader ++ s).dropWhile (fun c => c ≠ ',') = ',' :: s := by
    simp [dataUrlHeader, List.dropWhile]
  rw [hdrop, List.drop_one, List.tail_cons, List.takeWhile_eq_self_iff]
  intro c hc
  simpa using hs c hc

/-- Decoding a data-URL-wrapped encoding recovers the bitmap: this is the
round trip the `reset` and `filter_result` payloads go through. -/
theorem decode_base64_image_dataUrl (img : Img) (h : img.wf) :
    decode_base64_image (dataUrlHeader ++ encode_image_to_base64 img) =
      some img := by
  have hbytes := pngEncode_lt img h
  have hnc := b64EncodeGroups_no_comma _ hbytes
  have hcontains : (dataUrlHeader ++ b64EncodeGroups (pngEncode img)).contains ','
      = true := by
    apply List.elem_eq_true_of_mem
    simp [dataUrlHeader]
  simp only [decode_base64_image, encode_image_to_base64]
  rw [if_pos hcontains]
  rw [stripHeader_append _ hnc]
  rw [b64Decode_b64EncodeGroups _ hbytes]
  simp only [pngDecode_pngEncode img h]

/-- Clamp a rational to a byte, rounding to nearest: models the float→uint8
conversion inside PIL's `Image.blend`/filter code. -/
def q2byte (q : ℚ) : Nat := (min 255 (max 0 ⌊q + 1 / 2⌋)).toNat

/-- Clip to [0,255] then truncate toward zero:
`np.clip(arr, 0, 255).astype(np.uint8)`. -/
def clipByte (q : ℚ) : Nat := (min 255 (max 0 ⌊q⌋)).toNat

/-- PIL `convert('L')` luminance, the exact integer formula PIL uses
(ITU-R 601-2: `(R*19595 + G*38470 + B*7471 + 2^15) >> 16`). -/
def lum (p : RGB) : Nat := (p.r * 19595 + p.g * 38470 + p.b * 7471 + 32768) / 65536

/-- PIL `img.convert('RGB')`: mode L replicates the channel into three;
mode RGB is unchanged. -/
def Img.convertRGB : Img → Img
  | .rgb rows => .rgb rows
  | .gray rows => .rgb (rows.map fun row => row.map fun v => ⟨v, v, v⟩)

/-- PIL `img.convert('L')`. -/
def Img.convertL : Img → Img
  | .rgb rows => .gray (rows.map fun row => row.map lum)
  | .gray rows => .gray rows

/-- The sepia stage (websocket_router.py, lines 44–53): `np.dot` with the
fixed 3×3 matrix, clipped to [0,255] and truncated to uint8; the library's
float arithmetic is modelled by exact rationals. -/
def sepiaPix (p : RGB) : RGB :=
  ⟨clipByte ((393 * p.r + 769 * p.g + 189 * p.b : ℚ) / 1000),
    clipByte ((349 * p.r + 686 * p.g + 168 * p.b : ℚ) / 1000),
    clipByte ((272 * p.r + 534 * p.g + 131 * p.b : ℚ) / 1000)⟩

/-- `img = Image.fromarray(np.dot(np.array(img), sepia_matrix.T) ...)`; the
pipeline only reaches this with an RGB image, the mode-L branch is
unreachable and left as the identity. -/
def Img.sepia : Img → Img
  | .rgb rows => .rgb (rows.map fun row => row.map sepiaPix)
  | .gray rows => .gray rows

/-- `255 - img_array`, per channel. -/
def invertPix (p : RGB) : RGB := ⟨255 - p.r, 255 - p.g, 255 - p.b⟩

/-- The invert stage (lines 56–59): `img_array = 255 - img_array`. -/
def Img.invert : Img → Img
  | .rgb rows => .rgb (rows.map fun row => row.map invertPix)
  | .gray rows => .gray (rows.map fun row => row.map fun v => 255 - v)

/-- Pixel access with a default, for the blur window. -/
def pixAt (rows : List (List RGB)) (i j : Nat) : RGB :=
  (rows.getD i []).getD j ⟨0, 0, 0⟩

/-- The sixteen window offsets of PIL's `ImageFilter.BLUR` kernel: the
border ring of the 5×5 window (the inner 3×3 entries are zero). -/
def blurOffsets : List (Nat × Nat) :=
  [(0, 0), (0, 1), (0, 2), (0, 3), (0, 4),
    (1, 0), (1, 4), (2, 0), (2, 4), (3, 0), (3, 4),
    (4, 0), (4, 1), (4, 2), (4, 3), (4, 4)]

/-- One blurred pixel: the ring average (scale 16) for interior pixels;
pixels within two of the border keep their value (PIL copies the margin the
5×5 kernel cannot reach). -/
def blurAt (rows : List (List RGB)) (w : Nat) (i j : Nat) : RGB :=
  if 2 ≤ i ∧ i + 2 < rows.length ∧ 2 ≤ j ∧ j + 2 < w then
    ⟨q2byte (((blurOffsets.map fun o =>
        (pixAt rows (i + o.1 - 2) (j + o.2 - 2)).r).sum : ℚ) / 16),
      q2byte (((blurOffsets.map fun o =>
        (pixAt rows (i + o.1 - 2) (j + o.2 - 2)).g).sum : ℚ) / 16),
      q2byte (((blurOffsets.map fun o =>
        (pixAt rows (i + o.1 - 2) (j + o.2 - 2)).b).sum : ℚ) / 16)⟩
  else pixAt rows i j

/-- Model of the external `img.filter(ImageFilter.BLUR)` call (line 55);
the mode-L branch is unreachable in the pipeline and left as the
identity. -/
def Img.blur : Img → Img
  | .rgb rows =>
      .rgb (rows.mapIdx fun i row => row.mapIdx fun j _ =>
        blurAt rows (Img.width (.rgb rows)) i j)
  | .gray rows => .gray rows

/-- Per-channel blend `deg + factor * (value - deg)`, rounded to a byte:
the core of PIL `ImageEnhance.*.enhance` (`Image.blend`). -/
def blendChan (deg : ℚ) (v : Nat) (factor : ℚ) : Nat :=
  q2byte (deg + factor * ((v : ℚ) - deg))

/-- PIL `ImageEnhance.Brightness(img).enhance(factor)`: blend with the
black image. -/
def enhanceBrightness (img : Img) (factor : ℚ) : Img :=
  match img with
  | .rgb rows => .rgb (rows.map fun row => row.map fun p =>
      ⟨blendChan 0 p.r factor, blendChan 0 p.g factor, blendChan 0 p.b factor⟩)
  | .gray rows => .gray (rows.map fun row => row.map fun v => blendChan 0 v factor)

/-- The mean luminance PIL `ImageEnhance.Contrast` blends with:
`int(ImageStat.Stat(image.convert("L")).mean[0] + 0.5)`. -/
def contrastMean (img : Img) : Nat :=
  let vals := match img.convertL with
    | .gray rows => rows.flatten
    | .rgb _ => []
  Int.toNat ⌊((vals.sum : ℚ) / (vals.length : ℚ)) + 1 / 2⌋

/-- PIL `ImageEnhance.Contrast(img).enhance(factor)`: blend with the solid
gray image at the mean luminance. -/
def enhanceContrast (img : Img) (factor : ℚ) : Img :=
  match img with
  | .rgb rows => .rgb (rows.map fun row => row.map fun p =>
      ⟨blendChan (contrastMean (.rgb rows)) p.r factor,
        blendChan (contrastMean (.rgb rows)) p.g factor,
        blendChan (contrastMean (.rgb rows)) p.b factor⟩)
  | .gray rows => .gray (rows.map fun row => row.map fun v =>
      blendChan (contrastMean (.gray rows)) v factor)

/-- PIL `ImageEnhance.Color(img).enhance(factor)`: blend with the grayscale
version of the image (for mode L the two coincide, so it is the
identity). -/
def enhanceColor (img : Img) (factor : ℚ) : Img :=
  match img with
  | .rgb rows => .rgb (rows.map fun row => row.map fun p =>
      ⟨blendChan (lum p) p.r factor, blendChan (lum p) p.g factor,
        blendChan (lum p) p.b factor⟩)
  | .gray rows => .gray rows

/-- The inner dispatch of the filter stage (websocket_router.py,
lines 42–59): four recognised names, an unknown name falls through every
`elif` and leaves the image untouched. -/
def applySelectedFilter (img : Img) (filter_type : String) : Img :=
  if filter_type = "grayscale" then img.convertL.convertRGB
  else if filter_type = "sepia" then img.sepia
  else if filter_type = "blur" then img.blur
  else if filter_type = "invert" then img.invert
  else img

/-- Python truthiness of the guard `if filter_type and filter_type != "none"`
(line 41): `None` and the empty string are falsy. -/
def filterRequested : Option String → Bool
  | none => false
  | some s => !(s = "") && !(s = "none")

/-- The guarded filter block of `apply_filters_to_image` (lines 41–59):
`if filter_type and filter_type != "none": ...dispatch...`. -/
def filterStage (filter_type : Option String) (img : Img) : Img :=
  if filterRequested filter_type then
    applySelectedFilter img (filter_type.getD "")
  else img

/-- One enhancement block of `apply_filters_to_image` (lines 61–74):
`if value is not None and value != 100.0:
img = Enhancer(img).enhance(value / 100.0)`. -/
def enhStage (enh : Img → ℚ → Img) (value : Option ℚ) (img : Img) : Img :=
  match value with
  | some v => if v ≠ 100 then enh img (v / 100) else img
  | none => img

/-- `apply_filters_to_image` (websocket_router.py, lines 28–76), translated
block by block: convert to RGB if the mode differs, then the optional
filter stage, then brightness, contrast and saturation in order, each
skipped at its neutral default.  For the numeric parameters `none` models
an explicit JSON `null` (Python `None`); an absent key reaches this
function as its default `100.0`, i.e. `some 100`. -/
def apply_filters_to_image (img : Img) (filter_type : Option String)
    (brightness contrast saturation : Option ℚ) : Img :=
  let i1 := if img.mode ≠ "RGB" then img.convertRGB else img
  let i2 := filterStage filter_type i1
  let i3 := enhStage enhanceBrightness brightness i2
  let i4 := enhStage enhanceContrast contrast i3
  enhStage enhanceColor saturation i4

/-- The filter stage as §4.2 of the spec words it: skipped when the name is
absent, empty or `"none"`. -/
def specFilterStage (ft : Option String) (img : Img) : Img :=
  match ft with
  | none => img
  | some s => if s = "" ∨ s = "none" then img else applySelectedFilter img s

/-- An enhancement stage as the spec words it: skipped entirely at the
neutral default `100.0`, otherwise applied with multiplier `value/100`. -/
def specEnhanceStage (enh : Img → ℚ → Img) (v : Option ℚ) (img : Img) : Img :=
  match v with
  | none => img
  | some q => if q = 100 then img else enh img (q / 100)

/-- The pipeline as the spec describes it: a working copy normalised to
three channels, then the four stages composed in the fixed order
filter type → brightness → contrast → saturation. -/
def specPipeline (img : Img) (filter_type : Option String)
    (brightness contrast saturation : Option ℚ) : Img :=
  specEnhanceStage enhanceColor saturation
    (specEnhanceStage enhanceContrast contrast
      (specEnhanceStage enhanceBrightness brightness
        (specFilterStage filter_type img.convertRGB)))

/-- A parsed client message as `websocket_endpoint` sees it after
`json.loads`.  `other` is a JSON object whose `type` is none of the three
known discriminators (or whose `type` is absent); `malformed` is a frame on
which `json.loads` (or the subsequent attribute access) raises. -/
inductive ClientMsg where
  | init (image_data : Option (List Char))
  | applyFilters (filter_type : Option String)
      (brightness contrast saturation : Option ℚ)
  | reset
  | other (t : Option String)
  | malformed
deriving DecidableEq

/-- A message sent back to the client (the JSON payloads of
`websocket_router.py`). -/
inductive ServerMsg where
  | initialized
  | filterResult (image : List Char)
  | resetResult (image : List Char)
  | error (message : String)
deriving DecidableEq, Repr

/-- Result of processing one incoming frame: either the loop continues in a
new state after sending `out`, or an exception reached the outer handler,
which sent an error message, removed the connection from the registry and
returned — ending the session. -/
inductive StepResult where
  | ok (st : Option Img) (out : List ServerMsg)
  | fatal (out : List ServerMsg)
deriving DecidableEq

/-- One iteration of the receive loop of `websocket_endpoint`
(websocket_router.py, lines 101–163).  The per-connection state is the
stored original image: `none` is the UNINITIALIZED state, `some` is READY.
Where the code raises, the outer handler's `str(e)` text is modelled by a
fixed representative string. -/
def wsStep (st : Option Img) : ClientMsg → StepResult
  | .init image_data =>
      match image_data with
      | none => .ok st []
      | some s =>
        if s = [] then .ok st []
        else
          match decode_base64_image s with
          | some img => .ok (some img) [.initialized]
          | none => .fatal [.error "cannot identify image file"]
  | .applyFilters ft b c sat =>
      match st with
      | none => .ok none [.error "Image not initialized"]
      | some orig =>
          .ok (some orig) [.filterResult
            (dataUrlHeader ++ encode_image_to_base64
              (apply_filters_to_image orig ft b c sat))]
  | .reset =>
      match st with
      | none => .ok none []
      | some orig =>
          .ok (some orig) [.resetResult
            (dataUrlHeader ++ encode_image_to_base64 orig)]
  | .other _ => .ok st []
  | .malformed => .fatal [.error "invalid JSON"]

/-- The receive loop: frames are processed strictly in order; a fatal step
ends the session, discarding nothing already sent. -/
def wsRun (st : Option Img) : List ClientMsg → StepResult
  | [] => .ok st []
  | m :: ms =>
      match wsStep st m with
      | .ok st2 out =>
          match wsRun st2 ms with
          | .ok st3 out2 => .ok st3 (out ++ out2)
          | .fatal out2 => .fatal (out ++ out2)
      | .fatal out => .fatal out

/-- PIL `img.crop((x, y, x + width, y + height))` in the validated case
(the box lies inside the image, so no padding occurs): rows
`y ≤ i < y + height`, columns `x ≤ j < x + width`. -/
def cropRows {α : Type} (rows : List (List α)) (x y w h : Nat) :
    List (List α) :=
  ((rows.drop y).take h).map fun row => (row.drop x).take w

/-- Crop of a bitmap, both modes. -/
def Img.crop (img : Img) (x y w h : Nat) : Img :=
  match img with
  | .rgb rows => .rgb (cropRows rows x y w h)
  | .gray rows => .gray (cropRows rows x y w h)

/-- `crop_image` (image_router.py, lines 69–96) after the image has been
decoded: the two validation checks in source order, then the crop.
`Except.error` carries the `HTTPException` status code and detail; every
failure is surfaced with the client-fault status 400.  The endpoint holds
no state, so it is a pure function of its inputs. -/
def crop_image (img : Img) (x y width height : Int) :
    Except (Nat × String) Img :=
  if x < 0 ∨ y < 0 ∨ width ≤ 0 ∨ height ≤ 0 then
    .error (400, "Invalid crop parameters")
  else if x + width > (img.width : Int) ∨ y + height > (img.height : Int) then
    .error (400, "Crop area exceeds image dimensions")
  else
    .ok (img.crop x.toNat y.toNat width.toNat height.toNat)

/-- The operation names `adjust_image` (image_router.py, lines 245–400)
recognises. -/
def adjustOperations : List String :=
  ["equalization", "stretching", "thresholding", "mean", "gaussian",
    "median", "sobel", "laplacian", "prewitt", "canny"]

/-- The operation dispatch of `adjust_image`: a recognised name delegates
to the external OpenCV routine (outside this repository, summarised as
`Unit`); an unknown name raises `HTTPException(400, "Unknown operation:
...")`, which the surrounding `except` re-raises with status 400. -/
def adjustDispatch (operation : String) : Except (Nat × String) Unit :=
  if operation ∈ adjustOperations then .ok ()
  else .error (400, "Unknown operation: " ++ operation)

theorem convertRGB_of_mode (img : Img) :
    (if img.mode ≠ "RGB" then img.convertRGB else img) = img.convertRGB := by
  cases img <;> simp [Img.mode, Img.convertRGB]

theorem filterStage_eq_spec (ft : Option String) (img : Img) :
    filterStage ft img = specFilterStage ft img := by
  rcases ft with - | s
  · rfl
  · by_cases h1 : s = ""
    · simp [filterStage, specFilterStage, filterRequested, h1]
    · by_cases h2 : s = "none" <;>
        simp [filterStage, specFilterStage, filterRequested, h1, h2]

theorem enhStage_eq_spec (e : Img → ℚ → Img) (v : Option ℚ) (img : Img) :
    enhStage e v img = specEnhanceStage e v img := by
  rcases v with - | q
  · rfl
  · by_cases h : q = 100 <;> simp [enhStage, specEnhanceStage, h]

/-- The source pipeline coincides with the spec's staged description. -/
theorem apply_filters_to_image_eq_specPipeline (img : Img)
    (ft : Option String) (b c s : Option ℚ) :
    apply_filters_to_image img ft b c s = specPipeline img ft b c s := by
  simp only [apply_filters_to_image, specPipeline, convertRGB_of_mode,
    filterStage_eq_spec, enhStage_eq_spec]

/-- C1: in READY, an apply_filters message re-derives the output from a
working copy of the stored original through the fixed-order stage pipeline
(filter type, then brightness, then contrast, then saturation, each skipped
at its neutral default), emits it as a data-URL-encoded "filter_result",
and leaves the session READY with the original untouched.  The second
conjunct records that the source pipeline equals the spec's staged
description. -/
theorem c1_ready_apply_filters (orig : Img) (ft : Option String)
    (b c s : Option ℚ) :
    wsStep (some orig) (.applyFilters ft b c s) =
      .ok (some orig) [.filterResult (dataUrlHeader ++ encode_image_to_base64
        (specPipeline orig ft b c s))] ∧
    apply_filters_to_image orig ft b c s = specPipeline orig ft b c s := by
  refine ⟨?_, apply_filters_to_image_eq_specPipeline orig ft b c s⟩
  simp only [wsStep, apply_filters_to_image_eq_specPipeline]

/-- C3: with every parameter at its neutral default (filter type absent,
brightness = contrast = saturation = 100.0), the pipeline returns exactly
the 3-channel-RGB-converted original. -/
theorem c3_neutral_defaults (img : Img) :
    apply_filters_to_image img none (some 100) (some 100) (some 100) =
      img.convertRGB := by
  simp only [apply_filters_to_image, convertRGB_of_mode]
  simp [filterStage, filterRequested, enhStage]

/-- C4: an apply_filters message on a session with no stored image (no init
has succeeded) yields exactly an "error" message reporting the missing
initialisation, and the state stays UNINITIALIZED. -/
theorem c4_apply_filters_uninitialized (ft : Option String)
    (b c s : Option ℚ) :
    wsStep none (.applyFilters ft b c s) =
      .ok none [.error "Image not initialized"] := rfl

/-- C6 counterexample: a well-formed message whose type is the unknown
discriminator "foo" produces no outgoing message at all — in particular no
"error" — refuting the claim that such messages emit an error. -/
theorem c6_counterexample :
    wsStep none (.other (some "foo")) = .ok none [] := rfl

/-- C6 (amended): a well-formed message with an unrecognised type
discriminator matches no branch of the dispatch and is silently ignored:
nothing is sent and the session continues unchanged in its current
state. -/
theorem c6_amended (st : Option Img) (t : Option String) :
    wsStep st (.other t) = .ok st [] := rfl

/-- C10: an init message whose image_data is absent/null or the empty
string is falsy under `if image_data:` — nothing is sent (neither an
acknowledgement nor an error) and the stored original is unchanged. -/
theorem c10_init_empty (st : Option Img) :
    wsStep st (.init none) = .ok st [] ∧
    wsStep st (.init (some [])) = .ok st [] :=
  ⟨rfl, rfl⟩

theorem wsRun_snoc_reset (orig : Img) (ms : List ClientMsg)
    (hms : ∀ m ∈ ms, ∃ ft b c s, m = ClientMsg.applyFilters ft b c s) :
    ∃ outs, wsRun (some orig) (ms ++ [.reset]) =
      .ok (some orig)
        (outs ++ [.resetResult (dataUrlHeader ++ encode_image_to_base64 orig)]) := by
  induction ms with
  | nil =>
    refine ⟨[], ?_⟩
    simp [wsRun, wsStep]
  | cons m ms ih =>
    obtain ⟨ft, b, c, s, rfl⟩ := hms m (List.mem_cons_self m ms)
    obtain ⟨outs, houts⟩ := ih (fun x hx => hms x (by simp [hx]))
    refine ⟨.filterResult (dataUrlHeader ++ encode_image_to_base64
      (apply_filters_to_image orig ft b c s)) :: outs, ?_⟩
    simp only [List.cons_append, wsRun, wsStep, List.append_eq, houts,
      List.nil_append]

/-- C2: apply_filters never mutates the stored original (each call works on
a copy and the state keeps the same image), and a subsequent reset emits a
"reset_result" whose decoded pixels are identical to the stored original,
no matter how many apply_filters calls preceded it. -/
theorem c2_reset_pixel_identical (orig : Img) (h : orig.wf)
    (ms : List ClientMsg)
    (hms : ∀ m ∈ ms, ∃ ft b c s, m = ClientMsg.applyFilters ft b c s) :
    ∃ outs, wsRun (some orig) (ms ++ [.reset]) =
      .ok (some orig)
        (outs ++ [.resetResult (dataUrlHeader ++ encode_image_to_base64 orig)]) ∧
    decode_base64_image (dataUrlHeader ++ encode_image_to_base64 orig) =
      some orig := by
  obtain ⟨outs, houts⟩ := wsRun_snoc_reset orig ms hms
  exact ⟨outs, houts, decode_base64_image_dataUrl orig h⟩

/-- Witness for C2: a concrete 1×1 session with one apply_filters call. -/
theorem c2_witness :
    ∃ outs, wsRun (some (Img.rgb [[⟨1, 2, 3⟩]]))
      ([ClientMsg.applyFilters none (some 100) (some 100) (some 100)] ++
        [.reset]) =
      .ok (some (Img.rgb [[⟨1, 2, 3⟩]]))
        (outs ++ [.resetResult (dataUrlHeader ++
          encode_image_to_base64 (Img.rgb [[⟨1, 2, 3⟩]]))]) ∧
    decode_base64_image (dataUrlHeader ++
        encode_image_to_base64 (Img.rgb [[⟨1, 2, 3⟩]])) =
      some (Img.rgb [[⟨1, 2, 3⟩]]) :=
  c2_reset_pixel_identical (Img.rgb [[⟨1, 2, 3⟩]]) (by decide) _ (by
    intro m hm
    simp only [List.mem_singleton] at hm
    exact ⟨none, some 100, some 100, some 100, hm⟩)

/-- C5 counterexample: an init whose payload fails to decode does emit an
"error" message, but the step is fatal — the outer handler disconnects the
session — so the session does not remain open able to process further
messages, refuting the claim as stated. -/
theorem c5_counterexample :
    wsStep none (.init (some ['A', 'A', 'A', 'A'])) =
      .fatal [.error "cannot identify image file"] := by decide

/-- C5 (amended): on a malformed frame, or an init whose non-empty payload
fails to decode, the exception reaches the outer handler, which emits an
"error" message and then tears the session down (removes it from the
registry and returns): the session is closed and processes no further
messages, in any starting state. -/
theorem c5_amended (st : Option Img) (s : List Char) (hne : s ≠ [])
    (hdec : decode_base64_image s = none) :
    wsStep st (.init (some s)) = .fatal [.error "cannot identify image file"] ∧
    wsStep st .malformed = .fatal [.error "invalid JSON"] := by
  constructor
  · simp only [wsStep, hdec, if_neg hne]
  · rfl

/-- Witness for C5 at the concrete undecodable payload "AAAA". -/
theorem c5_witness :
    wsStep none (.init (some ['A', 'A', 'A', 'A'])) =
      .fatal [.error "cannot identify image file"] ∧
    wsStep none .malformed = .fatal [.error "invalid JSON"] :=
  c5_amended none ['A', 'A', 'A', 'A'] (by decide) (by decide)

/-- C7 counterexample: an apply_filters request with the unsupported filter
name "swirl" is not converted to an error on the streaming protocol: the
session answers with a normal "filter_result" (the unknown name silently
ignored), refuting the claim for this surface. -/
theorem c7_counterexample :
    wsStep (some (Img.rgb [[⟨1, 2, 3⟩]]))
        (.applyFilters (some "swirl") (some 100) (some 100) (some 100)) =
      .ok (some (Img.rgb [[⟨1, 2, 3⟩]]))
        [.filterResult (dataUrlHeader ++
          encode_image_to_base64 (Img.rgb [[⟨1, 2, 3⟩]]))] := by decide

/-- C7 (amended): an unsupported filter name in apply_filters falls through
every branch of the dispatch and is silently ignored — the filter stage has
no effect and a normal "filter_result" is emitted; only the HTTP adjust
endpoint converts an unknown operation name into a client-fault 400
error. -/
theorem c7_amended (img : Img) (name : String) (b c s : Option ℚ)
    (op : String)
    (h : name ∉ ["none", "grayscale", "sepia", "blur", "invert"])
    (hop : op ∉ adjustOperations) :
    applySelectedFilter img name = img ∧
    wsStep (some img) (.applyFilters (some name) b c s) =
      .ok (some img) [.filterResult (dataUrlHeader ++ encode_image_to_base64
        (enhStage enhanceColor s (enhStage enhanceContrast c
          (enhStage enhanceBrightness b img.convertRGB))))] ∧
    adjustDispatch op = .error (400, "Unknown operation: " ++ op) := by
  simp only [List.mem_cons, List.not_mem_nil, or_false, not_or] at h
  obtain ⟨h0, h1, h2, h3, h4⟩ := h
  have hsel : ∀ i : Img, applySelectedFilter i name = i := by
    intro i
    simp [applySelectedFilter, h1, h2, h3, h4]
  have hfs : filterStage (some name) img.convertRGB = img.convertRGB := by
    by_cases he : name = ""
    · simp [filterStage, filterRequested, he]
    · simp [filterStage, filterRequested, he, h0, hsel]
  refine ⟨hsel img, ?_, ?_⟩
  · simp only [wsStep, apply_filters_to_image, convertRGB_of_mode, hfs]
  · simp [adjustDispatch, hop]

/-- Witness for C7 at the concrete names "swirl" and "sharpen". -/
theorem c7_witness :
    applySelectedFilter (Img.rgb [[⟨1, 2, 3⟩]]) "swirl" =
      Img.rgb [[⟨1, 2, 3⟩]] ∧
    wsStep (some (Img.rgb [[⟨1, 2, 3⟩]]))
        (.applyFilters (some "swirl") (some 100) (some 100) (some 100)) =
      .ok (some (Img.rgb [[⟨1, 2, 3⟩]]))
        [.filterResult (dataUrlHeader ++ encode_image_to_base64
          (enhStage enhanceColor (some 100) (enhStage enhanceContrast (some 100)
            (enhStage enhanceBrightness (some 100)
              (Img.convertRGB (Img.rgb [[⟨1, 2, 3⟩]]))))))] ∧
    adjustDispatch "sharpen" = .error (400, "Unknown operation: " ++ "sharpen") :=
  c7_amended (Img.rgb [[⟨1, 2, 3⟩]]) "swirl" (some 100) (some 100) (some 100)
    "sharpen" (by decide) (by decide)

/-- C8: the crop endpoint rejects exactly the geometrically invalid
requests — negative origin, non-positive size, or a box exceeding the image
bounds — with a 400 validation error, and accepts every other request,
returning the cropped region; the endpoint is a pure function of its
inputs (no server state exists to alter). -/
theorem c8_crop_validation (img : Img) (x y w h : Int) :
    if x < 0 ∨ y < 0 ∨ w ≤ 0 ∨ h ≤ 0 ∨ x + w > (img.width : Int) ∨
        y + h > (img.height : Int) then
      ∃ m, crop_image img x y w h = .error (400, m)
    else
      crop_image img x y w h =
        .ok (img.crop x.toNat y.toNat w.toNat h.toNat) := by
  by_cases h1 : x < 0 ∨ y < 0 ∨ w ≤ 0 ∨ h ≤ 0
  · rw [if_pos (by tauto)]
    exact ⟨"Invalid crop parameters", by rw [crop_image, if_pos h1]⟩
  · by_cases h2 : x + w > (img.width : Int) ∨ y + h > (img.height : Int)
    · rw [if_pos (by tauto)]
      exact ⟨"Crop area exceeds image dimensions",
        by rw [crop_image, if_neg h1, if_pos h2]⟩
    · rw [if_neg (by tauto), crop_image, if_neg h1, if_neg h2]

/-- Witness for C8 at a concrete valid request on a 1×1 image. -/
theorem c8_witness :
    if (0 : Int) < 0 ∨ (0 : Int) < 0 ∨ (1 : Int) ≤ 0 ∨ (1 : Int) ≤ 0 ∨
        (0 : Int) + 1 > ((Img.rgb [[⟨1, 2, 3⟩]]).width : Int) ∨
        (0 : Int) + 1 > ((Img.rgb [[⟨1, 2, 3⟩]]).height : Int) then
      ∃ m, crop_image (Img.rgb [[⟨1, 2, 3⟩]]) 0 0 1 1 = .error (400, m)
    else
      crop_image (Img.rgb [[⟨1, 2, 3⟩]]) 0 0 1 1 =
        .ok ((Img.rgb [[⟨1, 2, 3⟩]]).crop (0 : Int).toNat (0 : Int).toNat
          (1 : Int).toNat (1 : Int).toNat) :=
  c8_crop_validation (Img.rgb [[⟨1, 2, 3⟩]]) 0 0 1 1

/-- C9: decoding the base64 PNG encoding of any well-formed in-memory image
reproduces exactly the same pixel data: the round trip through the
base64/PNG boundary is lossless. -/
theorem c9_roundtrip (img : Img) (h : img.wf) :
    decode_base64_image (encode_image_to_base64 img) = some img :=
  decode_base64_image_encode img h

/-- Witness for C9 at a concrete 1×1 image. -/
theorem c9_witness :
    decode_base64_image (encode_image_to_base64 (Img.rgb [[⟨1, 2, 3⟩]])) =
      some (Img.rgb [[⟨1, 2, 3⟩]]) :=
  c9_roundtrip (Img.rgb [[⟨1, 2, 3⟩]]) (by decide)
